import Mathlib

/-!
# Verification of the chatgpt-query-extension core

Shallow embedding of the repository's core logic and proofs about it:

* `src/shortcuts.js` — the Shortcut Matcher content script: shortcut-string
  parsing (`parseShortcut`, `normalizeKeyString`), keypress extraction
  (`extractKeyPress`), exact modifier-set matching (`modifierSetsMatch`),
  the keydown handler (`handleKeydown`), the load/initialization sequence
  (`loadShortcuts` / `initializeShortcuts`).
* `src/background.js` — the Dispatcher and Injection Engine: the in-page
  injected procedure with its request-id debounce guard
  (`injectedPageFunc`), its background wrapper (`tryInjectWithTiming`),
  single-action execution with its one scheduled retry (`executeAction`),
  Run All orchestration (`runAllActions`), and the Tab Readiness Waiter
  (`waitForTitleMatch`).

JavaScript strings are modelled as Lean `String`s, with the handful of
string primitives the source uses (`split('+')`, `trim()`, global
single-character `replace`, `toUpperCase` on a single character,
`toLowerCase().includes(...)`) implemented structurally over `String.data`
so that every definition evaluates inside the kernel.  Timers and awaits
are modelled by explicit time arithmetic in milliseconds (timers fire on
schedule); promise environments (tab creation, script injection, the
page's DOM) are explicit parameters.
-/

/-! ## JavaScript string primitives -/

/-- Whitespace for `String.prototype.trim` (the whitespace characters that
occur in this code base's inputs: space, tab, CR, LF). -/
def isWsChar (c : Char) : Bool :=
  c = ' ' || c = '\t' || c = '\n' || c = '\r'

/-- Drop leading and trailing whitespace from a character list. -/
def trimChars (cs : List Char) : List Char :=
  ((cs.dropWhile isWsChar).reverse.dropWhile isWsChar).reverse

/-- `s.trim()` on a JavaScript string. -/
def jsTrim (s : String) : String := ⟨trimChars s.data⟩

/-- One global single-character replacement pass, as in
`s.replace(/c/g, rep)` for a one-character pattern. -/
def replCh (tgt : Char) (rep : List Char) : List Char → List Char
  | [] => []
  | c :: cs => (if c = tgt then rep else [c]) ++ replCh tgt rep cs

/-- `split('+')` on a character list: `splitOnPlusAux cs acc` processes
`cs` with the (reversed) pending chunk `acc`.  Mirrors JavaScript
semantics: the result is never empty, `"".split('+') == [""]`. -/
def splitOnPlusAux : List Char → List Char → List (List Char)
  | [], acc => [acc.reverse]
  | c :: cs, acc =>
    if c = '+' then acc.reverse :: splitOnPlusAux cs []
    else splitOnPlusAux cs (c :: acc)

/-- `s.split('+')`. -/
def splitOnPlus (cs : List Char) : List (List Char) := splitOnPlusAux cs []

/-- ASCII uppercase of one character (`toUpperCase` for the single-letter
keys this code handles). -/
def upperChar (c : Char) : Char :=
  if 'a' ≤ c ∧ c ≤ 'z' then Char.ofNat (c.toNat - 32) else c

/-- ASCII lowercase of one character (`toLowerCase` for title matching). -/
def lowerChar (c : Char) : Char :=
  if 'A' ≤ c ∧ c ≤ 'Z' then Char.ofNat (c.toNat + 32) else c

/-- `s.toUpperCase()` (ASCII). -/
def strUpper (s : String) : String := ⟨s.data.map upperChar⟩

/-- Does `hay` start with `needle`? -/
def startsWithChars : List Char → List Char → Bool
  | _, [] => true
  | [], _ :: _ => false
  | h :: t, n :: ns => h = n && startsWithChars t ns

/-- Does `hay` contain `needle` as a contiguous substring
(`String.prototype.includes`)? -/
def containsChars : List Char → List Char → Bool
  | [], needle => needle.isEmpty
  | h :: t, needle => startsWithChars (h :: t) needle || containsChars t needle

/-- `title.toLowerCase().includes(sub.toLowerCase())`. -/
def titleIncludes (title sub : String) : Bool :=
  containsChars (title.data.map lowerChar) (sub.data.map lowerChar)

/-! ## Shortcut Matcher: data model (src/shortcuts.js) -/

/-- The four modifier keys recognised by the Shortcut Matcher. -/
inductive Modifier
  | ctrl
  | alt
  | shift
  | meta
deriving DecidableEq, Repr, Fintype

/-- A set of modifiers, as stored in the JavaScript `Set` built by
`parseShortcut` / `extractKeyPress`.  Since only the four modifiers above
are ever inserted, a field per modifier captures the `Set` exactly
(membership, size, and equality). -/
structure ModSet where
  ctrl : Bool
  alt : Bool
  shift : Bool
  meta : Bool
deriving DecidableEq, Repr, Fintype

/-- The empty modifier set (`new Set()`). -/
def ModSet.empty : ModSet := ⟨false, false, false, false⟩

/-- `set.has(mod)`. -/
def ModSet.has (s : ModSet) : Modifier → Bool
  | .ctrl => s.ctrl
  | .alt => s.alt
  | .shift => s.shift
  | .meta => s.meta

/-- `set.add(mod)`. -/
def ModSet.add (s : ModSet) : Modifier → ModSet
  | .ctrl => { s with ctrl := true }
  | .alt => { s with alt := true }
  | .shift => { s with shift := true }
  | .meta => { s with meta := true }

/-- `set.size`. -/
def ModSet.size (s : ModSet) : Nat :=
  s.ctrl.toNat + s.alt.toNat + s.shift.toNat + s.meta.toNat

/-- The list of all modifiers, used to iterate `for (const mod of set1)`. -/
def allModifiers : List Modifier := [.ctrl, .alt, .shift, .meta]

/-- src/shortcuts.js `modifierSetsMatch(set1, set2)`: same size, and every
member of `set1` is a member of `set2`. -/
def modifierSetsMatch (set1 set2 : ModSet) : Bool :=
  set1.size == set2.size &&
    allModifiers.all (fun m => !(set1.has m) || set2.has m)

/-- The `{modifiers, key}` pair produced by `parseShortcut` and
`extractKeyPress`. -/
structure KeyCombo where
  modifiers : ModSet
  key : String
deriving DecidableEq, Repr

/-- `validModifiers.includes(trimmed)` classification: which modifier, if
any, a trimmed token names. -/
def toModifier (t : String) : Option Modifier :=
  if t = "Ctrl" then some .ctrl
  else if t = "Alt" then some .alt
  else if t = "Shift" then some .shift
  else if t = "Meta" then some .meta
  else none

/-- src/shortcuts.js `normalizeKeyString(value)`: trim, strip a leading
`Key`/`Digit`/`Arrow` code marker, uppercase single characters. -/
def normalizeKeyString (value : String) : String :=
  if value = "" then ""
  else
    let key := jsTrim value
    let key :=
      if List.isPrefixOf "Key".data key.data then (⟨key.data.drop 3⟩ : String)
      else if List.isPrefixOf "Digit".data key.data then (⟨key.data.drop 5⟩ : String)
      else if List.isPrefixOf "Arrow".data key.data then (⟨key.data.drop 5⟩ : String)
      else key
    if key.data.length = 1 then strUpper key else key

/-- The four sequential global replacements converting legacy Mac symbols
to Chrome modifier names (`⌃→Ctrl`, `⌥→Alt`, `⇧→Shift`, `⌘→Meta`). -/
def normalizeSyms (cs : List Char) : List Char :=
  replCh '⌘' "Meta".data
    (replCh '⇧' "Shift".data
      (replCh '⌥' "Alt".data
        (replCh '⌃' "Ctrl".data cs)))

/-- One step of the `parts.forEach` loop in `parseShortcut`: a modifier
token is added to the set, any other token overwrites the key slot with
its normalization.  The key slot is `none` until first assigned. -/
def parseStep (st : ModSet × Option String) (part : String) :
    ModSet × Option String :=
  let trimmed := jsTrim part
  match toModifier trimmed with
  | some m => (st.1.add m, st.2)
  | none => (st.1, some (normalizeKeyString trimmed))

/-- src/shortcuts.js `parseShortcut(shortcutString)`: returns `none` for a
falsy input, otherwise replaces legacy symbols, splits on `+`, folds the
tokens, and fails if no modifier or no (nonempty) key was found. -/
def parseShortcut (shortcutString : String) : Option KeyCombo :=
  if shortcutString = "" then none
  else
    let normalized := normalizeSyms shortcutString.data
    let parts : List String := (splitOnPlus normalized).map (fun cs => ⟨cs⟩)
    if parts = [] then none
    else
      let st := parts.foldl parseStep (ModSet.empty, none)
      match st.2 with
      | none => none
      | some key =>
        if st.1.size = 0 ∨ key = "" then none
        else some ⟨st.1, key⟩

/-- A keydown event as seen by the content script: target element data,
the event's own modifier flags, and the physical key code. -/
structure KeyEvent where
  targetTag : String
  targetContentEditable : Bool
  ctrlKey : Bool
  altKey : Bool
  shiftKey : Bool
  metaKey : Bool
  code : String
deriving DecidableEq, Repr

/-- src/shortcuts.js `extractKeyPress(event)`: modifier flags plus the
normalized physical key code. -/
def extractKeyPress (e : KeyEvent) : KeyCombo :=
  ⟨⟨e.ctrlKey, e.altKey, e.shiftKey, e.metaKey⟩, normalizeKeyString e.code⟩

/-- The matching test applied per stored shortcut inside
`handleKeydown`'s `shortcuts.find(...)` (the spec's `matches`):
key equality and exact modifier-set equality. -/
def matchesPress (shortcut pressed : KeyCombo) : Bool :=
  shortcut.key == pressed.key &&
    modifierSetsMatch shortcut.modifiers pressed.modifiers

/-! ## Shortcut Matcher: stored list, keydown handling, initialization -/

/-- The opaque action reference attached to a shortcut: V3
`{menuId, actionId}` objects or V2 bare action-id strings. -/
inductive ActionRef
  | v3 (menuId actionId : String)
  | v2 (actionId : String)
deriving DecidableEq, Repr

/-- An entry of the in-memory `shortcuts` array:
`{modifiers, key, actionId}`. -/
structure StoredShortcut where
  modifiers : ModSet
  key : String
  actionId : ActionRef
deriving DecidableEq, Repr

/-- The `{modifiers, key}` part of a stored shortcut. -/
def storedCombo (s : StoredShortcut) : KeyCombo := ⟨s.modifiers, s.key⟩

/-- The parse-and-filter loop of `loadShortcuts` (and of the
`SHORTCUTS_UPDATED` handler): each `[shortcutString, actionId]` pair whose
string parses is appended; invalid strings are only warned about. -/
def loadShortcuts (pairs : List (String × ActionRef)) : List StoredShortcut :=
  pairs.foldl
    (fun acc p =>
      match parseShortcut p.1 with
      | some combo => acc ++ [⟨combo.modifiers, combo.key, p.2⟩]
      | none => acc)
    []

/-- Observable events of the initialization sequence: the shortcut fetch
completing, and `document.addEventListener('keydown', ...)` being called. -/
inductive InitEvent
  | fetchCompleted
  | listenerAttached
deriving DecidableEq, Repr

/-- src/shortcuts.js `initializeShortcuts`: awaits `loadShortcuts()` and
only then attaches the keydown listener; on an initialization error the
catch block attaches the listener anyway as a fallback.  The outcome of
the awaited fetch is an explicit parameter: `.ok (some pairs)` is a
response carrying shortcuts, `.ok none` a response without them (the
array is reset to `[]`), `.error` a rejection (e.g.
`chrome.runtime.sendMessage` throwing).  Returns the event trace and the
final in-memory shortcut list. -/
def initializeShortcuts
    (fetchOutcome : Except String (Option (List (String × ActionRef)))) :
    List InitEvent × List StoredShortcut :=
  match fetchOutcome with
  | .ok (some pairs) =>
    ([.fetchCompleted, .listenerAttached], loadShortcuts pairs)
  | .ok none => ([.fetchCompleted, .listenerAttached], [])
  | .error _ => ([.listenerAttached], [])

/-- Page context consulted by `handleKeydown` after a match: whether
`chrome.runtime?.id` is truthy, whether `window.getSelection` is
available (and returns a truthy object), and the selection's string
value. -/
structure PageCtx where
  runtimeValid : Bool
  selectionApi : Bool
  selectionText : String
deriving DecidableEq, Repr

/-- The `EXECUTE_SHORTCUT` message sent to the background. -/
structure SentMessage where
  actionId : ActionRef
  selectionText : String
deriving DecidableEq, Repr

/-- src/shortcuts.js `handleKeydown(event)`: ignore events targeting
inputs/textareas/contenteditables; find the first stored shortcut whose
key and modifier set match exactly; on a match, bail out silently if the
extension context is gone or the selection is empty, otherwise send one
`EXECUTE_SHORTCUT` message for the matched entry's action reference. -/
def handleKeydown (shortcuts : List StoredShortcut) (e : KeyEvent)
    (ctx : PageCtx) : Option SentMessage :=
  if e.targetTag = "INPUT" ∨ e.targetTag = "TEXTAREA" ∨
      e.targetContentEditable then none
  else
    let pressed := extractKeyPress e
    match shortcuts.find? (fun s => matchesPress (storedCombo s) pressed) with
    | none => none
    | some matched =>
      if ctx.runtimeValid then
        let selection := if ctx.selectionApi then jsTrim ctx.selectionText else ""
        if selection = "" then none
        else some ⟨matched.actionId, selection⟩
      else none

/-! ## Token-level characterization of `parseShortcut` inputs

Used to state C6 (when parsing fails) and C7 (order/symbol invariance)
without restating the parser itself. -/

/-- The trimmed token list `parseShortcut` works through for an input
string: symbol replacement, split on `+`, trim. -/
def tokensOf (s : String) : List String :=
  (splitOnPlus (normalizeSyms s.data)).map (fun cs => jsTrim ⟨cs⟩)

/-- Is a (trimmed) token one of the four modifier names? -/
def isModifierTok (t : String) : Bool := (toModifier t).isSome

/-- How many of the input's tokens are modifier tokens. -/
def modTokenCount (s : String) : Nat :=
  (tokensOf s).countP isModifierTok

/-- The token that ends up in the key slot: the last non-modifier token
(each non-modifier token overwrites the slot). -/
def lastKeyToken (s : String) : Option String :=
  ((tokensOf s).filter (fun t => !isModifierTok t)).getLast?

/-- Whether a (nonempty) key is found: the last non-modifier token exists
and normalizes to a nonempty string. -/
def keyFound (s : String) : Bool :=
  match lastKeyToken s with
  | some t => normalizeKeyString t != ""
  | none => false

/-! ## Injection Engine (src/background.js, tryInjectWithTiming) -/

/-- The structured result returned by the injected page procedure:
`{inserted, submitted, skipped}`. -/
structure InjectResult where
  inserted : Bool
  submitted : Bool
  skipped : Bool
deriving DecidableEq, Repr

/-- The page-global debounce state `window.__JSE_STATE`:
`{lastReqId, lastReqAt}`.  `lastReqId` is `none` before any delivery
(`undefined`); `lastReqAt` defaults to `0` (`g.lastReqAt || 0`). -/
structure PageState where
  lastReqId : Option String
  lastReqAt : Nat
deriving DecidableEq, Repr

/-- A fresh page that has seen no delivery. -/
def initialPageState : PageState := ⟨none, 0⟩

/-- The debounce window: `DEBOUNCE_MS = 10_000`. -/
def DEBOUNCE_MS : Nat := 10000

/-- The editor-search bound: `MAX_TRIES = 40` polls at `INTERVAL = 200` ms
after the immediate attempt. -/
def MAX_TRIES : Nat := 40

/-- Poll interval of the editor search, ms. -/
def INTERVAL : Nat := 200

/-- DOM environment for one delivery of the injected procedure: the tick
index at which `tryOnce` (find a visible editor and insert) first
succeeds — `some 0` means the immediate attempt succeeds, `some k` the
`k`-th 200 ms poll, `none` that no editor ever appears. -/
structure PageEnv where
  editorAppearsAt : Option Nat
deriving DecidableEq, Repr

/-- Everything observable about one delivery of the injected procedure:
its returned result, the updated debounce state, the texts actually
inserted into an editor, how many auto-submit tasks were *scheduled*
(`setTimeout(() => submit(editor), 150)`) versus *confirmed before the
procedure returned* (always `0` in the source: the return does not wait
for the scheduled submit), whether the give-up alert fired, and how long
the delivery took to settle (ms). -/
structure DeliveryOutcome where
  result : InjectResult
  finalState : PageState
  insertions : List String
  scheduledSubmits : Nat
  confirmedSubmits : Nat
  alerted : Bool
  duration : Nat
deriving DecidableEq, Repr

/-- The anonymous function injected by `tryInjectWithTiming`
(src/background.js lines 733-898).  In order: the request-id debounce
guard (same `requestId` handled within the last 10 s ⇒ return
`{skipped: true}` without touching the state); otherwise stamp the state,
then try to find a visible editor and insert, immediately and then on up
to 40 polls at 200 ms.  On insertion, an auto-submit is only *scheduled*
150 ms later and the procedure returns
`{inserted: true, submitted: shouldSubmit, skipped: false}` at once, so
`confirmedSubmits = 0` on every path.  After 40 failed polls it alerts
and returns all-false. -/
def injectedPageFunc (text _lab : String) (shouldSubmit : Bool)
    (requestId : String) (now : Nat) (st : PageState) (env : PageEnv) :
    DeliveryOutcome :=
  if st.lastReqId = some requestId ∧ now - st.lastReqAt < DEBOUNCE_MS then
    ⟨⟨false, false, true⟩, st, [], 0, 0, false, 0⟩
  else
    let st2 : PageState := ⟨some requestId, now⟩
    match env.editorAppearsAt with
    | some k =>
      if k ≤ MAX_TRIES then
        ⟨⟨true, shouldSubmit, false⟩, st2, [text],
          if shouldSubmit then 1 else 0, 0, false, INTERVAL * k⟩
      else
        ⟨⟨false, false, false⟩, st2, [], 0, 0, true, INTERVAL * MAX_TRIES⟩
    | none =>
      ⟨⟨false, false, false⟩, st2, [], 0, 0, true, INTERVAL * MAX_TRIES⟩

/-- Whether `chrome.scripting.executeScript` itself succeeds for a tab,
plus that tab's DOM environment. -/
structure TabEnv where
  scriptOk : Bool
  page : PageEnv
deriving DecidableEq, Repr

/-- The background-side normalization of a delivery's result:
`ok = !!(res && (res.inserted || res.submitted) && !res.skipped)`. -/
def toOk (r : InjectResult) : Bool :=
  (r.inserted || r.submitted) && !r.skipped

/-- One call of `tryInjectWithTiming` as seen by the Dispatcher: the
boolean it returns, the raw result (`none` when `executeScript` threw),
and the delivery's observable effects. -/
structure InjectCall where
  ok : Bool
  res : Option InjectResult
  page2 : PageState
  insertions : List String
  scheduledSubmits : Nat
  confirmedSubmits : Nat
  alerted : Bool
  duration : Nat
deriving DecidableEq, Repr

/-- src/background.js `tryInjectWithTiming(tabId, prompt, {...})`: runs the
injected procedure in the tab and normalizes its result; if script
injection throws (tab closed, permissions), catches and returns `false`
leaving the page untouched. -/
def tryInjectWithTiming (text _lab : String) (autoSubmit : Bool)
    (reqId : String) (now : Nat) (st : PageState) (env : TabEnv) :
    InjectCall :=
  if env.scriptOk then
    let o := injectedPageFunc text _lab autoSubmit reqId now st env.page
    ⟨toOk o.result, some o.result, o.finalState, o.insertions,
      o.scheduledSubmits, o.confirmedSubmits, o.alerted, o.duration⟩
  else
    ⟨false, none, st, [], 0, 0, false, 0⟩

/-! ## Dispatcher (src/background.js): single action and Run All -/

/-- An injection attempt as scheduled by the Dispatcher: its label, the
delay (ms) between the previous step and its delivery, and its
request-id. -/
structure AttemptInfo where
  label : String
  delayMs : Nat
  reqId : String
deriving DecidableEq, Repr

/-- The attempt-level trace of one action execution: the attempts that
were scheduled, the first delivery, and the retry delivery if one was
scheduled and executed. -/
structure ExecTrace where
  attempts : List AttemptInfo
  call1 : InjectCall
  call2 : Option InjectCall
deriving DecidableEq, Repr

/-- The attempt #1 / attempt #2 pattern shared by `executeAction` and
`runAllActions`: deliver attempt `labelBase#1` now; if it reports
failure, schedule exactly one retry `labelBase#2` after 1200 ms *with the
same `reqId`* (the source generates `reqId` once, before attempt #1).
The retry is delivered at `t0 + (duration of attempt #1) + 1200`. -/
def injectTwice (promptText labelBase : String) (autoSubmit : Bool)
    (reqId : String) (t0 : Nat) (st0 : PageState) (env1 env2 : TabEnv) :
    ExecTrace :=
  let c1 := tryInjectWithTiming promptText (labelBase ++ "#1") autoSubmit
    reqId t0 st0 env1
  if c1.ok then ⟨[⟨labelBase ++ "#1", 0, reqId⟩], c1, none⟩
  else
    let c2 := tryInjectWithTiming promptText (labelBase ++ "#2") autoSubmit
      reqId (t0 + c1.duration + 1200) c1.page2 env2
    ⟨[⟨labelBase ++ "#1", 0, reqId⟩, ⟨labelBase ++ "#2", 1200, reqId⟩],
      c1, some c2⟩

/-- An Action of the configuration: `{id, title, prompt, enabled, order}`
(the shortcut string is irrelevant to the Dispatcher model). -/
structure ActionCfg where
  id : String
  title : String
  promptText : String
  enabled : Bool
  order : Nat
deriving DecidableEq, Repr

/-- A Menu: `{id, name, customGptUrl, autoSubmit, actions}`. -/
structure Menu where
  id : String
  name : String
  customGptUrl : String
  autoSubmit : Bool
  actions : List ActionCfg
deriving DecidableEq, Repr

/-- src/background.js `executeAction(action, selectionText, menu, config)`
for an already-generated request-id.  `tabOpened` is the outcome of
`openOrFocusGptTab` (`true`: a ready tab, whose page starts in `st0`).
On success: attempt #1 now, and exactly one retry after 1200 ms with the
same request-id if it failed.  On a tab-opening exception the catch block
opens a plain tab (fresh page state) and schedules a single delayed
attempt with a *newly generated* request-id `reqIdFb`. -/
def executeAction (action : ActionCfg) (selectionText : String) (menu : Menu)
    (tabOpened : Bool) (reqId reqIdFb : String) (t0 : Nat) (st0 : PageState)
    (env1 env2 envFb : TabEnv) : ExecTrace :=
  let promptText := action.promptText ++ " " ++ selectionText
  if tabOpened then
    injectTwice promptText (action.id ++ "-attempt") menu.autoSubmit reqId
      t0 st0 env1 env2
  else
    let c := tryInjectWithTiming promptText (action.id ++ "-fallback")
      menu.autoSubmit reqIdFb (t0 + 1200) initialPageState envFb
    ⟨[⟨action.id ++ "-fallback", 1200, reqIdFb⟩], c, none⟩

/-- Stable insertion of an action into a list sorted by `order`
(JavaScript's `sort((a, b) => a.order - b.order)` is stable). -/
def insertByOrder (a : ActionCfg) : List ActionCfg → List ActionCfg
  | [] => [a]
  | b :: bs =>
    if a.order ≤ b.order then a :: b :: bs else b :: insertByOrder a bs

/-- Stable sort by `order`. -/
def sortByOrder : List ActionCfg → List ActionCfg
  | [] => []
  | a :: rest => insertByOrder a (sortByOrder rest)

/-- The per-index environment of a Run All execution, indexed by the
position of each enabled action: the outcome of its
`chrome.tabs.create` + `waitForTitleMatch` phase (`none` = caught
failure, logged and mapped to `null`), the request-id generated for it,
its injection start time, and the tab environments of its two attempts. -/
structure RunAllEnv where
  tabOutcome : Nat → Option Nat
  reqId : Nat → String
  t0 : Nat → Nat
  injEnv1 : Nat → TabEnv
  injEnv2 : Nat → TabEnv

/-- The settled record of one per-action injection pipeline (phase 2).
`idx` is the action's position among the enabled actions (the key into
`RunAllEnv`). -/
structure InjRecord where
  idx : Nat
  actionId : String
  tabId : Nat
  trace : ExecTrace
deriving DecidableEq, Repr

/-- What a Run All execution produces: one `chrome.tabs.create` call
`(url, active)` per enabled action issued in order, the settled phase-1
outcome per enabled action (`Promise.all(tabCreationPromises)`), and the
settled phase-2 injection records for the actions whose tab became ready
(`Promise.all(promises)`).  Each per-action lambda catches its own
errors, so one pipeline's failure never rejects the enclosing
`Promise.all`; totality of these lists is the model of "all settled". -/
structure RunAllReport where
  tabCreates : List (String × Bool)
  phase1 : List (Option Nat)
  injections : List InjRecord
deriving Repr

/-- The body of one phase-2 pipeline lambda of `runAllActions` for a
ready tab `(idx, action, tabId)`: build the prompt and run the
attempt#1/retry pattern against that tab's own fresh page. -/
def runAllPipelineRecord (selectionText : String) (menu : Menu)
    (env : RunAllEnv) (q : Nat × ActionCfg × Nat) : InjRecord :=
  let promptText := q.2.1.promptText ++ " " ++ selectionText
  ⟨q.1, q.2.1.id, q.2.2,
    injectTwice promptText ("runAll-" ++ q.2.1.id ++ "-attempt")
      menu.autoSubmit (env.reqId q.1) (env.t0 q.1) initialPageState
      (env.injEnv1 q.1) (env.injEnv2 q.1)⟩

/-- src/background.js `runAllActions(selectionText, menu, config)`: filter
the menu's enabled actions, sort by order, create one inactive background
tab per enabled action (in order), await readiness of all in parallel,
drop the failed ones (`results.filter(r => r !== null)`), then run the
attempt#1/retry injection pipeline in every remaining tab in parallel,
each against its own fresh page. -/
def runAllActions (selectionText : String) (menu : Menu) (env : RunAllEnv) :
    RunAllReport :=
  let enabledActions := sortByOrder (menu.actions.filter (fun a => a.enabled))
  let withIdx := enabledActions.enum
  let tabCreates := enabledActions.map (fun _ => (menu.customGptUrl, false))
  let phase1 := withIdx.map (fun p => env.tabOutcome p.1)
  let tabData := withIdx.filterMap
    (fun p => (env.tabOutcome p.1).map (fun tid => (p.1, p.2, tid)))
  ⟨tabCreates, phase1, tabData.map (runAllPipelineRecord selectionText menu env)⟩

/-! ## Tab Readiness Waiter (src/background.js, waitForTitleMatch) -/

/-- One observable step inside `waitForTitleMatch`: a `tabs.onUpdated`
event (for this tab or not, with or without a `title` change, and the
tab's current title), or one iteration of the 250 ms safety-net poll —
`chrome.tabs.get` returning a tab with the given title, returning a falsy
value, or throwing. -/
inductive WaitStep
  | updatedEvent (sameTab : Bool) (hasTitleInfo : Bool) (tabTitle : String)
  | pollTab (title : String)
  | pollMissing
  | pollThrew
deriving DecidableEq, Repr

/-- How the waiter's promise settles. -/
inductive SettleKind
  | resolved (tabId : Nat)
  | rejectedTimeout
  | rejectedTabClosed
  | rejectedError
deriving DecidableEq, Repr

/-- The waiter's status: still pending, or settled; in both cases with
whether the `tabs.onUpdated` listener is (still) attached. -/
inductive WaitResult
  | pending (listenerAttached : Bool)
  | settled (kind : SettleKind) (listenerAttached : Bool)
deriving DecidableEq, Repr

/-- The body of `waitForTitleMatch`, driven by a step sequence; `i` counts
poll iterations, so the `i`-th poll runs at `start + 250 * i` and the
timeout test is `250 * i > timeoutMs`.  Branches in source order:
a matching update event resolves via `done` (which removes the listener);
a poll seeing a matching title resolves via `done`; a poll seeing a falsy
tab rejects `"Tab closed"` **without** removing the listener; a poll past
the deadline removes the listener and rejects with the timeout error; a
throwing poll is caught, removes the listener, and rejects. -/
def runWaitAux (tabId : Nat) (titleSub : String) (timeoutMs : Nat) :
    List WaitStep → Nat → WaitResult
  | [], _ => .pending true
  | .updatedEvent sameTab hasT title :: rest, i =>
    if sameTab && hasT && titleIncludes title titleSub then
      .settled (.resolved tabId) false
    else runWaitAux tabId titleSub timeoutMs rest i
  | .pollTab title :: rest, i =>
    if titleIncludes title titleSub then .settled (.resolved tabId) false
    else if 250 * i > timeoutMs then .settled .rejectedTimeout false
    else runWaitAux tabId titleSub timeoutMs rest (i + 1)
  | .pollMissing :: _, _ => .settled .rejectedTabClosed true
  | .pollThrew :: _, _ => .settled .rejectedError false

/-- src/background.js `waitForTitleMatch(tabId, titleSubstring, timeoutMs)`:
attaches the `onUpdated` listener and starts polling. -/
def waitForTitleMatch (tabId : Nat) (titleSub : String) (timeoutMs : Nat)
    (steps : List WaitStep) : WaitResult :=
  runWaitAux tabId titleSub timeoutMs steps 0

/-- `parseStep` specialised to an already-trimmed token (`parseStep`
trims and then acts; over the trimmed token list of `tokensOf` the two
coincide). -/
def parseStepT (st : ModSet × Option String) (tok : String) :
    ModSet × Option String :=
  match toModifier tok with
  | some m => (st.1.add m, st.2)
  | none => (st.1, some (normalizeKeyString tok))

/-! ## Token-level denotation of shortcut strings (for C7)

A shortcut string is described by its token list: modifier tokens (in
ASCII-name or legacy-symbol form) and key tokens, joined by `+`.  This
gives an independent way to say two strings "denote the same key and the
same modifier set, regardless of order and symbol form". -/

/-- The written form of a modifier token. -/
inductive ModForm
  | ascii
  | sym
deriving DecidableEq, Repr

/-- The ASCII (Chrome-format) name of a modifier. -/
def modName : Modifier → String
  | .ctrl => "Ctrl"
  | .alt => "Alt"
  | .shift => "Shift"
  | .meta => "Meta"

/-- The legacy Mac symbol of a modifier. -/
def modSymbol : Modifier → String
  | .ctrl => "⌃"
  | .alt => "⌥"
  | .shift => "⇧"
  | .meta => "⌘"

/-- One token of a shortcut string. -/
inductive ShortcutTok
  | modTok (m : Modifier) (f : ModForm)
  | keyTok (k : String)
deriving DecidableEq, Repr

/-- How a token is written in the string. -/
def renderTok : ShortcutTok → String
  | .modTok m .ascii => modName m
  | .modTok m .sym => modSymbol m
  | .keyTok k => k

/-- The token after symbol normalization: always the ASCII form. -/
def asciiTok : ShortcutTok → String
  | .modTok m _ => modName m
  | .keyTok k => k

/-- Join string parts with the plus sign (inverse of `split('+')`). -/
def joinPlus : List String → String
  | [] => ""
  | [s] => s
  | s :: rest => s ++ "+" ++ joinPlus rest

/-- The shortcut string written from a token list. -/
def renderShortcut (toks : List ShortcutTok) : String :=
  joinPlus (toks.map renderTok)

/-- The modifier set a token list denotes. -/
def modSetOfToks (toks : List ShortcutTok) : ModSet :=
  toks.foldl
    (fun ms t =>
      match t with
      | .modTok m _ => ms.add m
      | .keyTok _ => ms)
    ModSet.empty

/-- The key tokens of a token list, in order. -/
def keyToksOf (toks : List ShortcutTok) : List String :=
  toks.filterMap
    (fun t =>
      match t with
      | .keyTok k => some k
      | .modTok _ _ => none)

/-- The four legacy symbol characters. -/
def symChars : List Char := ['\u2303', '\u2325', '\u21E7', '\u2318']

/-- A well-formed key token: no plus sign and no legacy symbol character
in it (so splitting and symbol replacement leave it alone), no
surrounding whitespace, and not itself a modifier name. -/
def goodKeyTok (k : String) : Bool :=
  k.data.all (fun c => !(c = '+') && !(symChars.contains c)) &&
    (jsTrim k == k) && (toModifier k).isNone

/-! ### Concrete Run All fixtures (used by the C9 instantiation)

A menu with three enabled actions and one disabled action, and two
environments that differ only in pipeline 1's first-attempt script
outcome (`c9EnvB` makes action index 1's injection fail). -/

def c9MenuW : Menu :=
  ⟨"m1", "Research", "https://chatgpt.com/g/g-r", true,
    [⟨"b1", "T1", "P1", true, 0⟩, ⟨"b2", "T2", "P2", false, 1⟩,
      ⟨"b3", "T3", "P3", true, 2⟩, ⟨"b4", "T4", "P4", true, 3⟩]⟩

def c9EnvA : RunAllEnv :=
  ⟨fun i => some (10 + i), fun _ => "rq", fun _ => 0,
    fun _ => ⟨true, ⟨some 0⟩⟩, fun _ => ⟨true, ⟨some 0⟩⟩⟩

def c9EnvB : RunAllEnv :=
  ⟨fun i => some (10 + i), fun _ => "rq", fun _ => 0,
    fun i => if i = 1 then ⟨false, ⟨none⟩⟩ else ⟨true, ⟨some 0⟩⟩,
    fun _ => ⟨true, ⟨some 0⟩⟩⟩

/-! ## Helper lemmas -/

/-- `modifierSetsMatch` is exactly equality of modifier sets: equal size
plus inclusion of `set1` in `set2` forces equality on a four-element
universe. -/
theorem modifierSetsMatch_iff :
    ∀ set1 set2 : ModSet, modifierSetsMatch set1 set2 = true ↔ set1 = set2 := by
  decide

/-! ## C5 — `matches` is exact key plus exact modifier-set equality -/

/-- C5: for every stored shortcut combo and every extracted keypress
combo, the per-shortcut matching test of `handleKeydown` returns `true`
iff the pressed key equals the shortcut's key and the two modifier sets
are exactly equal; and whenever some modifier's membership differs
between the two sets, the match is `false` even if the keys agree. -/
theorem C5_matches_exact
    : (∀ shortcut pressed : KeyCombo,
        matchesPress shortcut pressed = true ↔
          pressed.key = shortcut.key ∧ shortcut.modifiers = pressed.modifiers) ∧
      (∀ shortcut pressed : KeyCombo, ∀ m : Modifier,
        shortcut.modifiers.has m ≠ pressed.modifiers.has m →
        matchesPress shortcut pressed = false) := by
  constructor
  · intro shortcut pressed
    simp only [matchesPress, Bool.and_eq_true, beq_iff_eq,
      modifierSetsMatch_iff]
    constructor
    · rintro ⟨h1, h2⟩
      exact ⟨h1.symm, h2⟩
    · rintro ⟨h1, h2⟩
      exact ⟨h1.symm, h2⟩
  · intro shortcut pressed m hm
    rcases hok : matchesPress shortcut pressed with _ | _
    · rfl
    · exfalso
      simp only [matchesPress, Bool.and_eq_true, beq_iff_eq,
        modifierSetsMatch_iff] at hok
      exact hm (by rw [hok.2])

/-- Witness for C5's second conjunct at a concrete differing modifier. -/
theorem C5_matches_exact_witness :
    (ModSet.has ⟨true, false, false, false⟩ Modifier.alt ≠
      ModSet.has ⟨true, true, false, false⟩ Modifier.alt) ∧
    matchesPress ⟨⟨true, false, false, false⟩, "S"⟩
      ⟨⟨true, true, false, false⟩, "S"⟩ = false :=
  ⟨by decide,
    C5_matches_exact.2 ⟨⟨true, false, false, false⟩, "S"⟩
      ⟨⟨true, true, false, false⟩, "S"⟩ Modifier.alt (by decide)⟩

/-! ## C2 — auto-submit is reported before it is performed (code bug) -/

/-- C2 (code bug evaluation): at a concrete delivery with auto-submit
requested and a visible editor, the injected procedure returns
`submitted: true` while the submit-control activation has only been
*scheduled* (one pending `setTimeout(submit, 150)` task) and zero
submissions have been confirmed at return time — the documented
fire-and-forget bug, contradicting the claim's (intended) contract that
`submitted: true` is reported only after a confirmed activation. -/
theorem C2_submitted_reported_before_confirmation :
    (injectedPageFunc "Summarize: Acme Corp" "a1-attempt#1" true "r1" 0
      initialPageState ⟨some 0⟩).result.submitted = true ∧
    (injectedPageFunc "Summarize: Acme Corp" "a1-attempt#1" true "r1" 0
      initialPageState ⟨some 0⟩).scheduledSubmits = 1 ∧
    (injectedPageFunc "Summarize: Acme Corp" "a1-attempt#1" true "r1" 0
      initialPageState ⟨some 0⟩).confirmedSubmits = 0 := by
  decide

/-! ## C4 — per-request-id idempotence of the injected procedure -/

/-- C4: delivering the injected procedure twice with the same request-id
within the 10 s window yields exactly one insertion — the first delivery
inserts, the second returns `{inserted: false, submitted: false,
skipped: true}` and inserts nothing; delivering with two distinct
request-ids performs an insertion both times, even with identical prompt
text.  `k1`/`k3` bound when the editor is found (within the 40-poll
budget); the second same-id delivery is skipped regardless of its DOM
environment `k2`. -/
theorem C4_injection_idempotent_per_reqid
    (text rid rid2 lab1 lab2 lab3 : String) (sub1 sub2 sub3 : Bool)
    (t1 t2 t3 k1 k2 k3 : Nat)
    (hk1 : k1 ≤ MAX_TRIES) (hk3 : k3 ≤ MAX_TRIES)
    (hwin : t2 - t1 < DEBOUNCE_MS) (hne : rid ≠ rid2) :
    (injectedPageFunc text lab1 sub1 rid t1 initialPageState ⟨some k1⟩).insertions
      = [text] ∧
    (injectedPageFunc text lab2 sub2 rid t2
      (injectedPageFunc text lab1 sub1 rid t1 initialPageState ⟨some k1⟩).finalState
      ⟨some k2⟩).result = ⟨false, false, true⟩ ∧
    (injectedPageFunc text lab2 sub2 rid t2
      (injectedPageFunc text lab1 sub1 rid t1 initialPageState ⟨some k1⟩).finalState
      ⟨some k2⟩).insertions = [] ∧
    (injectedPageFunc text lab3 sub3 rid2 t3
      (injectedPageFunc text lab1 sub1 rid t1 initialPageState ⟨some k1⟩).finalState
      ⟨some k3⟩).result.inserted = true ∧
    (injectedPageFunc text lab3 sub3 rid2 t3
      (injectedPageFunc text lab1 sub1 rid t1 initialPageState ⟨some k1⟩).finalState
      ⟨some k3⟩).insertions = [text] := by
  have h1 : injectedPageFunc text lab1 sub1 rid t1 initialPageState ⟨some k1⟩
      = ⟨⟨true, sub1, false⟩, ⟨some rid, t1⟩, [text],
          if sub1 then 1 else 0, 0, false, INTERVAL * k1⟩ := by
    unfold injectedPageFunc initialPageState
    simp [hk1]
  have h2 : injectedPageFunc text lab2 sub2 rid t2
      (⟨some rid, t1⟩ : PageState) ⟨some k2⟩
      = ⟨⟨false, false, true⟩, ⟨some rid, t1⟩, [], 0, 0, false, 0⟩ := by
    unfold injectedPageFunc
    simp [hwin]
  have h3 : injectedPageFunc text lab3 sub3 rid2 t3
      (⟨some rid, t1⟩ : PageState) ⟨some k3⟩
      = ⟨⟨true, sub3, false⟩, ⟨some rid2, t3⟩, [text],
          if sub3 then 1 else 0, 0, false, INTERVAL * k3⟩ := by
    unfold injectedPageFunc
    have hne2 : ¬(rid = rid2) := hne
    simp [hk3, hne2]
  rw [h1]
  simp only [h2, h3]
  simp

/-- Witness for C4 at concrete inputs: request-ids `"a"`, `"b"`, times
0 and 5000 ms apart, editors found immediately. -/
theorem C4_injection_idempotent_per_reqid_witness :
    (0 ≤ MAX_TRIES ∧ 5000 - 0 < DEBOUNCE_MS ∧ ("a" : String) ≠ "b") ∧
    ((injectedPageFunc "hello" "L1" false "a" 0 initialPageState ⟨some 0⟩).insertions
      = ["hello"] ∧
    (injectedPageFunc "hello" "L2" false "a" 5000
      (injectedPageFunc "hello" "L1" false "a" 0 initialPageState ⟨some 0⟩).finalState
      ⟨some 0⟩).result = ⟨false, false, true⟩ ∧
    (injectedPageFunc "hello" "L2" false "a" 5000
      (injectedPageFunc "hello" "L1" false "a" 0 initialPageState ⟨some 0⟩).finalState
      ⟨some 0⟩).insertions = [] ∧
    (injectedPageFunc "hello" "L3" false "b" 5000
      (injectedPageFunc "hello" "L1" false "a" 0 initialPageState ⟨some 0⟩).finalState
      ⟨some 0⟩).result.inserted = true ∧
    (injectedPageFunc "hello" "L3" false "b" 5000
      (injectedPageFunc "hello" "L1" false "a" 0 initialPageState ⟨some 0⟩).finalState
      ⟨some 0⟩).insertions = ["hello"]) :=
  ⟨⟨by decide, by decide, by decide⟩,
    C4_injection_idempotent_per_reqid "hello" "a" "b" "L1" "L2" "L3"
      false false false 0 5000 5000 0 0 0 (by decide) (by decide)
      (by decide) (by decide)⟩

/-! ## C1 — the scheduled retry reuses the first attempt's request-id -/

/-- C1 counterexample: a concrete single-action execution whose first
attempt fails (no editor appears in the first tab's DOM).  Exactly one
retry is scheduled after 1200 ms — but it carries the *same* request-id
`"r1"` as attempt #1, not a fresh one, and even though the retry's DOM
has an editor available immediately, the delivery is suppressed by
attempt #1's 10-second debounce window: it returns
`{inserted: false, submitted: false, skipped: true}` and inserts
nothing.  This falsifies both the fresh-request-id part and the
never-suppressed part of the claim. -/
theorem C1_counterexample :
    (executeAction ⟨"a1", "Action One", "Summarize:", true, 0⟩ "Acme"
      ⟨"m1", "Menu", "https://chatgpt.com/g/g-x", false, []⟩ true "r1" "r9" 0
      initialPageState ⟨true, ⟨none⟩⟩ ⟨true, ⟨some 0⟩⟩ ⟨true, ⟨some 0⟩⟩).attempts
      = [⟨"a1-attempt#1", 0, "r1"⟩, ⟨"a1-attempt#2", 1200, "r1"⟩] ∧
    ((executeAction ⟨"a1", "Action One", "Summarize:", true, 0⟩ "Acme"
      ⟨"m1", "Menu", "https://chatgpt.com/g/g-x", false, []⟩ true "r1" "r9" 0
      initialPageState ⟨true, ⟨none⟩⟩ ⟨true, ⟨some 0⟩⟩ ⟨true, ⟨some 0⟩⟩).call2.map
      (fun c => (c.res, c.insertions)))
      = some (some ⟨false, false, true⟩, []) := by
  decide

/-- The first call recorded by `injectTwice` is always the attempt #1
delivery. -/
theorem injectTwice_call1 (p lb : String) (a : Bool) (r : String) (t : Nat)
    (st : PageState) (e1 e2 : TabEnv) :
    (injectTwice p lb a r t st e1 e2).call1
      = tryInjectWithTiming p (lb ++ "#1") a r t st e1 := by
  simp only [injectTwice]
  split <;> rfl

/-- Against a fresh page, a delivery whose environment offers an editor
within the poll budget reports success. -/
theorem tryInject_fresh_found (text lab : String) (auSub : Bool)
    (reqId : String) (t0 : Nat) (env : TabEnv) (hs : env.scriptOk = true)
    (k : Nat) (henv : env.page.editorAppearsAt = some k)
    (hk : k ≤ MAX_TRIES) :
    (tryInjectWithTiming text lab auSub reqId t0 initialPageState env).ok
      = true := by
  simp [tryInjectWithTiming, injectedPageFunc, toOk, hs, henv, hk,
    initialPageState]

/-- Against a fresh page, a delivery whose environment never offers an
editor within the poll budget stamps the debounce state and fails (with
the manual-paste alert) after the full 8 s search. -/
theorem tryInject_fresh_no_editor (text lab : String) (auSub : Bool)
    (reqId : String) (t0 : Nat) (env : TabEnv) (hs : env.scriptOk = true)
    (hed : env.page.editorAppearsAt = none ∨
      ∃ k, env.page.editorAppearsAt = some k ∧ ¬k ≤ MAX_TRIES) :
    tryInjectWithTiming text lab auSub reqId t0 initialPageState env
      = ⟨false, some ⟨false, false, false⟩, ⟨some reqId, t0⟩, [], 0, 0, true,
          INTERVAL * MAX_TRIES⟩ := by
  rcases hed with h | ⟨k, hk1, hk2⟩
  · simp [tryInjectWithTiming, injectedPageFunc, toOk, hs, h,
      initialPageState]
  · simp [tryInjectWithTiming, injectedPageFunc, toOk, hs, hk1, hk2,
      initialPageState]

/-- A delivery with the same request-id, at most 8.8 s later than the
debounce stamp plus the 1.2 s retry delay, is suppressed by the 10 s
debounce guard. -/
theorem tryInject_debounced (text lab : String) (auSub : Bool)
    (reqId : String) (t0 d : Nat) (env : TabEnv)
    (hs : env.scriptOk = true) (hd : d < 8800) :
    tryInjectWithTiming text lab auSub reqId (t0 + d + 1200)
      (⟨some reqId, t0⟩ : PageState) env
      = ⟨false, some ⟨false, false, true⟩, ⟨some reqId, t0⟩, [], 0, 0, false,
          0⟩ := by
  have ht : t0 + d + 1200 - t0 < DEBOUNCE_MS := by
    unfold DEBOUNCE_MS
    omega
  simp [tryInjectWithTiming, injectedPageFunc, toOk, hs, ht]

/-- C1 (amended): when the tab opened and the first attempt's script ran
but reported failure, `executeAction` schedules exactly one additional
attempt after a fixed 1.2 s delay — but that attempt reuses the first
attempt's request-id, and is therefore always delivered inside the first
attempt's 10-second debounce window (the first attempt's in-page search
lasts at most 8 s, so the retry lands at most 9.2 s after the debounce
stamp): whenever the retry's own script injection succeeds, it returns
`skipped: true` and performs no insertion. -/
theorem C1_single_retry_same_reqid_debounced
    (action : ActionCfg) (sel : String) (menu : Menu) (reqId reqIdFb : String)
    (t0 : Nat) (env1 env2 envFb : TabEnv)
    (hscript : env1.scriptOk = true)
    (hfail : (executeAction action sel menu true reqId reqIdFb t0
      initialPageState env1 env2 envFb).call1.ok = false) :
    (executeAction action sel menu true reqId reqIdFb t0 initialPageState
      env1 env2 envFb).attempts.map AttemptInfo.reqId = [reqId, reqId] ∧
    (executeAction action sel menu true reqId reqIdFb t0 initialPageState
      env1 env2 envFb).attempts.map AttemptInfo.delayMs = [0, 1200] ∧
    (env2.scriptOk = true →
      ((executeAction action sel menu true reqId reqIdFb t0 initialPageState
        env1 env2 envFb).call2.map (fun c => (c.res, c.insertions)))
        = some (some ⟨false, false, true⟩, [])) := by
  have hexec : executeAction action sel menu true reqId reqIdFb t0
      initialPageState env1 env2 envFb
      = injectTwice (action.promptText ++ " " ++ sel)
          (action.id ++ "-attempt") menu.autoSubmit reqId t0
          initialPageState env1 env2 := rfl
  rw [hexec] at hfail ⊢
  rw [injectTwice_call1] at hfail
  have hed : env1.page.editorAppearsAt = none ∨
      ∃ k, env1.page.editorAppearsAt = some k ∧ ¬k ≤ MAX_TRIES := by
    cases henv : env1.page.editorAppearsAt with
    | none => exact Or.inl rfl
    | some k =>
      by_cases hk : k ≤ MAX_TRIES
      · exact absurd hfail (by
          rw [tryInject_fresh_found (action.promptText ++ " " ++ sel)
            (action.id ++ "-attempt" ++ "#1") menu.autoSubmit reqId t0 env1
            hscript k henv hk]
          simp)
      · exact Or.inr ⟨k, rfl, hk⟩
  have hc1 := tryInject_fresh_no_editor (action.promptText ++ " " ++ sel)
    (action.id ++ "-attempt" ++ "#1") menu.autoSubmit reqId t0 env1
    hscript hed
  unfold injectTwice
  rw [hc1]
  simp only [show (⟨false, some ⟨false, false, false⟩, ⟨some reqId, t0⟩, [],
    0, 0, true, INTERVAL * MAX_TRIES⟩ : InjectCall).ok = false from rfl,
    Bool.false_eq_true, if_false]
  refine ⟨rfl, rfl, ?_⟩
  intro hs2
  rw [tryInject_debounced (action.promptText ++ " " ++ sel)
    (action.id ++ "-attempt" ++ "#2") menu.autoSubmit reqId t0
    (INTERVAL * MAX_TRIES) env2 hs2 (by unfold INTERVAL MAX_TRIES; omega)]
  rfl

/-- Witness for C1's amended theorem at the counterexample's inputs. -/
theorem C1_single_retry_same_reqid_debounced_witness :
    ((⟨true, ⟨none⟩⟩ : TabEnv).scriptOk = true ∧
      (executeAction ⟨"a1", "Action One", "Summarize:", true, 0⟩ "Acme"
        ⟨"m1", "Menu", "https://chatgpt.com/g/g-x", false, []⟩ true "r1" "r9" 0
        initialPageState ⟨true, ⟨none⟩⟩ ⟨true, ⟨some 0⟩⟩
        ⟨true, ⟨some 0⟩⟩).call1.ok = false) ∧
    ((executeAction ⟨"a1", "Action One", "Summarize:", true, 0⟩ "Acme"
      ⟨"m1", "Menu", "https://chatgpt.com/g/g-x", false, []⟩ true "r1" "r9" 0
      initialPageState ⟨true, ⟨none⟩⟩ ⟨true, ⟨some 0⟩⟩
      ⟨true, ⟨some 0⟩⟩).attempts.map AttemptInfo.reqId = ["r1", "r1"] ∧
    (executeAction ⟨"a1", "Action One", "Summarize:", true, 0⟩ "Acme"
      ⟨"m1", "Menu", "https://chatgpt.com/g/g-x", false, []⟩ true "r1" "r9" 0
      initialPageState ⟨true, ⟨none⟩⟩ ⟨true, ⟨some 0⟩⟩
      ⟨true, ⟨some 0⟩⟩).attempts.map AttemptInfo.delayMs = [0, 1200] ∧
    ((⟨true, ⟨some 0⟩⟩ : TabEnv).scriptOk = true →
      ((executeAction ⟨"a1", "Action One", "Summarize:", true, 0⟩ "Acme"
        ⟨"m1", "Menu", "https://chatgpt.com/g/g-x", false, []⟩ true "r1" "r9" 0
        initialPageState ⟨true, ⟨none⟩⟩ ⟨true, ⟨some 0⟩⟩
        ⟨true, ⟨some 0⟩⟩).call2.map (fun c => (c.res, c.insertions)))
        = some (some ⟨false, false, true⟩, []))) :=
  ⟨⟨by decide, by decide⟩,
    C1_single_retry_same_reqid_debounced
      ⟨"a1", "Action One", "Summarize:", true, 0⟩ "Acme"
      ⟨"m1", "Menu", "https://chatgpt.com/g/g-x", false, []⟩ "r1" "r9" 0
      ⟨true, ⟨none⟩⟩ ⟨true, ⟨some 0⟩⟩ ⟨true, ⟨some 0⟩⟩ (by decide) (by decide)⟩

/-! ## C3 — listener attachment versus shortcut fetch completion -/

/-- C3 counterexample: when the awaited `loadShortcuts()` rejects (e.g.
`chrome.runtime.sendMessage` throws because the extension context is
invalidated), the catch block of `initializeShortcuts` attaches the
keydown listener anyway, so there is an execution whose trace contains
`listenerAttached` but no completed fetch — falsifying "for every
execution of the initialization, the fetch completes before
`document.addEventListener` for keydown is called". -/
theorem C3_counterexample :
    (initializeShortcuts (Except.error "sendMessage threw")).1
      = [InitEvent.listenerAttached] ∧
    InitEvent.fetchCompleted ∉
      (initializeShortcuts (Except.error "sendMessage threw")).1 := by
  decide

/-- C3 (amended): on every successfully completing initialization (the
awaited fetch resolves, with or without shortcuts), the fetch completes
strictly before the keydown listener is attached; on a failed
initialization the catch block still attaches the listener (as a
fallback), without the fetch having completed. -/
theorem C3_fetch_completes_before_listener_attach :
    (∀ r : Option (List (String × ActionRef)),
      (initializeShortcuts (Except.ok r)).1
        = [InitEvent.fetchCompleted, InitEvent.listenerAttached]) ∧
    (∀ o : Except String (Option (List (String × ActionRef))),
      InitEvent.listenerAttached ∈ (initializeShortcuts o).1) := by
  constructor
  · intro r
    cases r <;> rfl
  · intro o
    cases o with
    | error e => simp [initializeShortcuts]
    | ok r => cases r <;> simp [initializeShortcuts]

/-! ## C8 — listener removal on the waiter's resolution paths -/

/-- C8 counterexample: the poll branch that observes a falsy tab
(`if (!t) return reject(new Error("Tab closed"))`) rejects the promise
*without* running `cleanup()`: the waiter settles as rejected-tab-closed
with the `tabs.onUpdated` listener still attached (`true`), falsifying
"removes the listener on every resolution path". -/
theorem C8_counterexample :
    waitForTitleMatch 7 "ChatGPT" 20000 [WaitStep.pollMissing]
      = WaitResult.settled SettleKind.rejectedTabClosed true := by
  decide

/-- The poll loop removes the listener on every settle except the
falsy-tab rejection, at any poll iteration. -/
theorem runWaitAux_listener_removed (tabId : Nat) (sub : String) (tm : Nat) :
    ∀ (steps : List WaitStep) (i : Nat) (k : SettleKind) (b : Bool),
      runWaitAux tabId sub tm steps i = .settled k b →
      k ≠ SettleKind.rejectedTabClosed → b = false := by
  intro steps
  induction steps with
  | nil =>
    intro i k b h _
    exact absurd h (by simp [runWaitAux])
  | cons step rest ih =>
    intro i k b h hk
    cases step with
    | updatedEvent sameTab hasT title =>
      simp only [runWaitAux] at h
      split at h
      · cases h
        rfl
      · exact ih i k b h hk
    | pollTab title =>
      simp only [runWaitAux] at h
      split at h
      · cases h
        rfl
      · split at h
        · cases h
          rfl
        · exact ih (i + 1) k b h hk
    | pollMissing =>
      simp only [runWaitAux] at h
      cases h
      exact absurd rfl hk
    | pollThrew =>
      simp only [runWaitAux] at h
      cases h
      rfl

/-- C8 (amended): on every settling path except the falsy-tab
`"Tab closed"` rejection — i.e. resolution with the tab id, rejection by
timeout, and rejection because `chrome.tabs.get` threw — the
`tabs.onUpdated` listener is removed before the promise settles. -/
theorem C8_listener_removed_except_tab_closed
    (tabId : Nat) (sub : String) (tm : Nat) (steps : List WaitStep)
    (k : SettleKind) (b : Bool)
    (hsettle : waitForTitleMatch tabId sub tm steps = .settled k b)
    (hk : k ≠ SettleKind.rejectedTabClosed) : b = false :=
  runWaitAux_listener_removed tabId sub tm steps 0 k b hsettle hk

/-- Witness for C8's amended theorem: a poll that sees a matching title
resolves with the listener removed. -/
theorem C8_listener_removed_except_tab_closed_witness :
    (waitForTitleMatch 7 "chatgpt" 20000 [WaitStep.pollTab "Chat with ChatGPT"]
      = WaitResult.settled (SettleKind.resolved 7) false ∧
      SettleKind.resolved 7 ≠ SettleKind.rejectedTabClosed) ∧
    (false : Bool) = false :=
  ⟨⟨by decide, by decide⟩,
    C8_listener_removed_except_tab_closed 7 "chatgpt" 20000
      [WaitStep.pollTab "Chat with ChatGPT"] (SettleKind.resolved 7) false
      (by decide) (by decide)⟩

/-! ## C10 — at most one shortcut fires; first match in load order -/

/-- `find?` skips a whole prefix in which the predicate never holds. -/
theorem find?_append_none {α : Type} (p : α → Bool) (l1 l2 : List α)
    (h : ∀ x ∈ l1, p x = false) : (l1 ++ l2).find? p = l2.find? p := by
  induction l1 with
  | nil => rfl
  | cons a t ih =>
    have ha := h a (List.mem_cons_self a t)
    simp only [List.cons_append, List.find?_cons, ha]
    exact ih (fun x hx => h x (List.mem_cons_of_mem a hx))

/-- C10: on a keydown not targeting an editable element, with the runtime
reachable and a nonempty trimmed selection, when the in-memory list is
`l1 ++ s :: l2` with nothing in `l1` matching and `s` matching, then
exactly one `EXECUTE_SHORTCUT` message is sent and it carries `s`'s
action reference: the first matching entry in load order wins, and later
entries — including duplicate bindings in `l2` with the same key and
modifier set — never fire (`handleKeydown` returns at most one message by
construction, `Option`-valued like the single `sendMessage` call). -/
theorem C10_first_match_fires
    (l1 l2 : List StoredShortcut) (s : StoredShortcut) (e : KeyEvent)
    (ctx : PageCtx)
    (ht1 : e.targetTag ≠ "INPUT") (ht2 : e.targetTag ≠ "TEXTAREA")
    (ht3 : e.targetContentEditable = false)
    (hl1 : ∀ s' ∈ l1, matchesPress (storedCombo s') (extractKeyPress e) = false)
    (hs : matchesPress (storedCombo s) (extractKeyPress e) = true)
    (hrt : ctx.runtimeValid = true) (hapi : ctx.selectionApi = true)
    (hne : jsTrim ctx.selectionText ≠ "") :
    handleKeydown (l1 ++ s :: l2) e ctx
      = some ⟨s.actionId, jsTrim ctx.selectionText⟩ := by
  have hfind : List.find?
      (fun x => matchesPress (storedCombo x) (extractKeyPress e))
      (l1 ++ s :: l2) = some s := by
    rw [find?_append_none _ l1 (s :: l2) hl1]
    exact List.find?_cons_of_pos _ hs
  unfold handleKeydown
  rw [if_neg (by
    push_neg
    exact ⟨ht1, ht2, by simp [ht3]⟩)]
  simp only [hfind, hrt, hapi, if_true]
  rw [if_neg hne]

/-- Witness for C10: a Ctrl+S press against a list holding a non-matching
Ctrl+A entry, a matching Ctrl+S entry, and a *duplicate* Ctrl+S entry
later in load order; only the first match's action reference is sent. -/
theorem C10_first_match_fires_witness :
    ((⟨"DIV", false, true, false, false, false, "KeyS"⟩ : KeyEvent).targetTag
        ≠ "INPUT" ∧
      (∀ s' ∈ [(⟨⟨true, false, false, false⟩, "A", ActionRef.v2 "x"⟩ :
          StoredShortcut)],
        matchesPress (storedCombo s')
          (extractKeyPress ⟨"DIV", false, true, false, false, false, "KeyS"⟩)
          = false) ∧
      matchesPress
        (storedCombo ⟨⟨true, false, false, false⟩, "S", ActionRef.v3 "m1" "a1"⟩)
        (extractKeyPress ⟨"DIV", false, true, false, false, false, "KeyS"⟩)
        = true ∧
      jsTrim "  Acme Corp " ≠ "") ∧
    handleKeydown
      ([⟨⟨true, false, false, false⟩, "A", ActionRef.v2 "x"⟩] ++
        (⟨⟨true, false, false, false⟩, "S", ActionRef.v3 "m1" "a1"⟩ :
          StoredShortcut) ::
        [⟨⟨true, false, false, false⟩, "S", ActionRef.v3 "m1" "a2"⟩])
      ⟨"DIV", false, true, false, false, false, "KeyS"⟩
      ⟨true, true, "  Acme Corp "⟩
      = some ⟨ActionRef.v3 "m1" "a1", "Acme Corp"⟩ := by
  refine ⟨⟨by decide, by decide, by decide, by decide⟩, ?_⟩
  have h := C10_first_match_fires
    [⟨⟨true, false, false, false⟩, "A", ActionRef.v2 "x"⟩]
    [⟨⟨true, false, false, false⟩, "S", ActionRef.v3 "m1" "a2"⟩]
    ⟨⟨true, false, false, false⟩, "S", ActionRef.v3 "m1" "a1"⟩
    ⟨"DIV", false, true, false, false, false, "KeyS"⟩
    ⟨true, true, "  Acme Corp "⟩
    (by decide) (by decide) (by decide) (by decide) (by decide) (by decide)
    (by decide) (by decide)
  rw [h]
  decide

/-! ## C9 — Run All: one tab per enabled action, pipelines isolated -/

/-- Inserting into the order-sorted list grows it by one. -/
theorem insertByOrder_len (a : ActionCfg) (l : List ActionCfg) :
    (insertByOrder a l).length = l.length + 1 := by
  induction l with
  | nil => rfl
  | cons b bs ih =>
    unfold insertByOrder
    split
    · rfl
    · simp [ih]

/-- The stable sort by `order` preserves length. -/
theorem sortByOrder_len (l : List ActionCfg) :
    (sortByOrder l).length = l.length := by
  induction l with
  | nil => rfl
  | cons a rest ih =>
    unfold sortByOrder
    rw [insertByOrder_len, ih]
    simp

/-- Non-interference of Run All pipelines: two executions whose
environments agree on every pipeline index except `j` produce identical
phase-2 records for every pipeline other than `j`, whatever happens to
pipeline `j` (its tab creation may fail, its injections may fail). -/
theorem pipeline_filter_congr (sel : String) (menu : Menu)
    (env env' : RunAllEnv) (j : Nat)
    (hagree : ∀ i, i ≠ j → env.tabOutcome i = env'.tabOutcome i ∧
      env.reqId i = env'.reqId i ∧ env.t0 i = env'.t0 i ∧
      env.injEnv1 i = env'.injEnv1 i ∧ env.injEnv2 i = env'.injEnv2 i) :
    ∀ l : List (Nat × ActionCfg),
      ((l.filterMap (fun p => (env.tabOutcome p.1).map
          (fun tid => (p.1, p.2, tid)))).map
        (runAllPipelineRecord sel menu env)).filter (fun r => r.idx != j)
      = ((l.filterMap (fun p => (env'.tabOutcome p.1).map
          (fun tid => (p.1, p.2, tid)))).map
        (runAllPipelineRecord sel menu env')).filter (fun r => r.idx != j) := by
  intro l
  induction l with
  | nil => rfl
  | cons p t ih =>
    by_cases hij : p.1 = j
    · simp only [List.filterMap_cons]
      cases h1 : env.tabOutcome p.1 <;> cases h2 : env'.tabOutcome p.1 <;>
        simp [runAllPipelineRecord, hij, ih]
    · obtain ⟨e1, e2, e3, e4, e5⟩ := hagree p.1 hij
      simp only [List.filterMap_cons, e1]
      cases h2 : env'.tabOutcome p.1 with
      | none => exact ih
      | some tid =>
        have hrec : runAllPipelineRecord sel menu env (p.1, p.2, tid) =
            runAllPipelineRecord sel menu env' (p.1, p.2, tid) := by
          unfold runAllPipelineRecord
          rw [e2, e3, e4, e5]
        simp only [Option.map] at ih ⊢
        simp only [List.map_cons, List.filter_cons, hrec]
        rw [ih]

/-- C9: a Run All execution issues exactly one `chrome.tabs.create` call
per *enabled* action (disabled actions get none), each an inactive
background tab at the menu's URL; phase 1 settles with one outcome per
enabled action; and the execution is per-pipeline isolated: changing
pipeline `j`'s environment arbitrarily (tab-creation failure, injection
failure) leaves every other pipeline's settled record unchanged — one
action's failure never prevents the others from completing. -/
theorem C9_run_all_one_tab_per_enabled_and_isolated
    (sel : String) (menu : Menu) (env env' : RunAllEnv) (j : Nat)
    (hagree : ∀ i, i ≠ j → env.tabOutcome i = env'.tabOutcome i ∧
      env.reqId i = env'.reqId i ∧ env.t0 i = env'.t0 i ∧
      env.injEnv1 i = env'.injEnv1 i ∧ env.injEnv2 i = env'.injEnv2 i) :
    (runAllActions sel menu env).tabCreates.length
      = (menu.actions.filter (fun a => a.enabled)).length ∧
    (∀ c ∈ (runAllActions sel menu env).tabCreates,
      c = (menu.customGptUrl, false)) ∧
    (runAllActions sel menu env).phase1.length
      = (menu.actions.filter (fun a => a.enabled)).length ∧
    ((runAllActions sel menu env).injections.filter (fun r => r.idx != j))
      = ((runAllActions sel menu env').injections.filter
          (fun r => r.idx != j)) := by
  refine ⟨?_, ?_, ?_, ?_⟩
  · simp [runAllActions, sortByOrder_len]
  · intro c hc
    simp only [runAllActions, List.mem_map] at hc
    obtain ⟨a, -, rfl⟩ := hc
    rfl
  · simp [runAllActions, sortByOrder_len]
  · exact pipeline_filter_congr sel menu env env' j hagree
      (sortByOrder (menu.actions.filter (fun a => a.enabled))).enum

/-- Witness for C9: three enabled actions and one disabled action — three
tabs are created, and making pipeline 1's injection fail leaves
pipelines 0 and 2 with identical settled records. -/
theorem C9_witness :
    (∀ i, i ≠ 1 → c9EnvA.tabOutcome i = c9EnvB.tabOutcome i ∧
      c9EnvA.reqId i = c9EnvB.reqId i ∧ c9EnvA.t0 i = c9EnvB.t0 i ∧
      c9EnvA.injEnv1 i = c9EnvB.injEnv1 i ∧
      c9EnvA.injEnv2 i = c9EnvB.injEnv2 i) ∧
    ((runAllActions "Acme" c9MenuW c9EnvA).tabCreates.length
      = (c9MenuW.actions.filter (fun a => a.enabled)).length ∧
    (∀ c ∈ (runAllActions "Acme" c9MenuW c9EnvA).tabCreates,
      c = (c9MenuW.customGptUrl, false)) ∧
    (runAllActions "Acme" c9MenuW c9EnvA).phase1.length
      = (c9MenuW.actions.filter (fun a => a.enabled)).length ∧
    ((runAllActions "Acme" c9MenuW c9EnvA).injections.filter
        (fun r => r.idx != 1))
      = ((runAllActions "Acme" c9MenuW c9EnvB).injections.filter
          (fun r => r.idx != 1))) := by
  have hag : ∀ i, i ≠ 1 → c9EnvA.tabOutcome i = c9EnvB.tabOutcome i ∧
      c9EnvA.reqId i = c9EnvB.reqId i ∧ c9EnvA.t0 i = c9EnvB.t0 i ∧
      c9EnvA.injEnv1 i = c9EnvB.injEnv1 i ∧
      c9EnvA.injEnv2 i = c9EnvB.injEnv2 i := by
    intro i hi
    exact ⟨rfl, rfl, rfl, by simp [c9EnvA, c9EnvB, hi], rfl⟩
  exact ⟨hag, C9_run_all_one_tab_per_enabled_and_isolated "Acme" c9MenuW
    c9EnvA c9EnvB 1 hag⟩

/-! ## C6 — when parseShortcut rejects its input -/

/-- The parse fold over raw parts equals the trimmed-token fold. -/
theorem foldl_parseStep (parts : List String) (st : ModSet × Option String) :
    parts.foldl parseStep st = (parts.map jsTrim).foldl parseStepT st := by
  rw [List.foldl_map]
  rfl

/-- Adding a modifier always leaves a nonempty set. -/
theorem add_size_ne_zero : ∀ (s : ModSet) (m : Modifier),
    (s.add m).size ≠ 0 := by decide

/-- The fold's modifier set is empty exactly when it started empty and no
token is a modifier token. -/
theorem fold_size_zero (toks : List String) :
    ∀ st : ModSet × Option String,
      ((toks.foldl parseStepT st).1.size = 0 ↔
        st.1.size = 0 ∧ toks.countP isModifierTok = 0) := by
  induction toks with
  | nil => intro st; simp
  | cons t ts ih =>
    intro st
    cases hm : toModifier t with
    | some m =>
      have hstep : parseStepT st t = (st.1.add m, st.2) := by
        unfold parseStepT
        rw [hm]
      have hmt : isModifierTok t = true := by simp [isModifierTok, hm]
      rw [List.foldl_cons, hstep, ih]
      simp [List.countP_cons, hmt, add_size_ne_zero]
    | none =>
      have hstep : parseStepT st t = (st.1, some (normalizeKeyString t)) := by
        unfold parseStepT
        rw [hm]
      have hmt : isModifierTok t = false := by simp [isModifierTok, hm]
      rw [List.foldl_cons, hstep, ih]
      simp [List.countP_cons, hmt]

/-- The fold's key slot holds the normalization of the last non-modifier
token, or its initial value when every token is a modifier. -/
theorem fold_key_slot (toks : List String) :
    ∀ st : ModSet × Option String,
      (toks.foldl parseStepT st).2 =
        match (toks.filter (fun t => !isModifierTok t)).getLast? with
        | some t => some (normalizeKeyString t)
        | none => st.2 := by
  induction toks with
  | nil => intro st; rfl
  | cons t ts ih =>
    intro st
    cases hm : toModifier t with
    | some m =>
      have hstep : parseStepT st t = (st.1.add m, st.2) := by
        unfold parseStepT
        rw [hm]
      have hmt : isModifierTok t = true := by simp [isModifierTok, hm]
      rw [List.foldl_cons, hstep, ih]
      simp [List.filter_cons, hmt]
    | none =>
      have hstep : parseStepT st t = (st.1, some (normalizeKeyString t)) := by
        unfold parseStepT
        rw [hm]
      have hmt : isModifierTok t = false := by simp [isModifierTok, hm]
      rw [List.foldl_cons, hstep, ih]
      simp only [List.filter_cons, hmt, Bool.not_false, if_true]
      cases hf : ts.filter (fun u => !isModifierTok u) with
      | nil => simp
      | cons u us =>
        cases hg : (u :: us).getLast? with
        | none => simp at hg
        | some v => rw [List.getLast?_cons_cons, hg]

/-- The split on the plus sign never yields an empty array. -/
theorem splitOnPlusAux_ne_nil : ∀ (cs acc : List Char),
    splitOnPlusAux cs acc ≠ [] := by
  intro cs
  induction cs with
  | nil => intro acc; simp [splitOnPlusAux]
  | cons c cs ih =>
    intro acc
    unfold splitOnPlusAux
    split
    · simp
    · exact ih _

/-- C6: `parseShortcut` returns `null` exactly when the input yields zero
modifier tokens or no key is found (the key slot — the last non-modifier
token — is absent or normalizes to the empty string); in particular the
bare key `"S"` parses to `null`, while `"Ctrl+S"` parses to a valid
Shortcut. -/
theorem C6_parse_null_iff :
    (∀ s : String, parseShortcut s = none ↔
      (modTokenCount s = 0 ∨ keyFound s = false)) ∧
    parseShortcut "S" = none ∧
    parseShortcut "Ctrl+S" = some ⟨⟨true, false, false, false⟩, "S"⟩ := by
  refine ⟨?_, by decide, by decide⟩
  intro s
  unfold parseShortcut
  by_cases hs : s = ""
  · subst hs
    decide
  · rw [if_neg hs]
    rw [if_neg (by
      simp only [splitOnPlus, ne_eq, List.map_eq_nil_iff]
      exact splitOnPlusAux_ne_nil (normalizeSyms s.data) [])]
    have hfold : ((splitOnPlus (normalizeSyms s.data)).map
        (fun cs => (⟨cs⟩ : String))).foldl parseStep (ModSet.empty, none)
        = (tokensOf s).foldl parseStepT (ModSet.empty, none) := by
      rw [foldl_parseStep, List.map_map]
      rfl
    rw [hfold]
    have hsz := fold_size_zero (tokensOf s) (ModSet.empty, none)
    simp only [fold_key_slot (tokensOf s) (ModSet.empty, none)]
    have hcount : modTokenCount s = (tokensOf s).countP isModifierTok := rfl
    cases hlast : lastKeyToken s with
    | none =>
      unfold lastKeyToken at hlast
      rw [hlast]
      have hkf : keyFound s = false := by
        unfold keyFound lastKeyToken
        rw [hlast]
      simp [hkf]
    | some t =>
      unfold lastKeyToken at hlast
      rw [hlast]
      have hkf : keyFound s = (normalizeKeyString t != "") := by
        unfold keyFound lastKeyToken
        rw [hlast]
      dsimp only
      by_cases hcond : ((tokensOf s).foldl parseStepT (ModSet.empty, none)).1.size = 0
        ∨ normalizeKeyString t = ""
      · rw [if_pos hcond]
        simp only [true_iff]
        rcases hcond with hc | hc
        · left
          rw [hcount]
          exact (hsz.mp hc).2
        · right
          rw [hkf]
          simp [hc]
      · rw [if_neg hcond]
        push_neg at hcond
        obtain ⟨hc1, hc2⟩ := hcond
        simp only [reduceCtorEq, false_iff]
        push_neg
        constructor
        · rw [hcount]
          intro h0
          exact hc1 (hsz.mpr ⟨by decide, h0⟩)
        · rw [hkf]
          simp [hc2]

/-! ## C7 — parse results invariant under modifier order and symbol
form -/

/-- Character replacement distributes over concatenation. -/
theorem replCh_append (tgt : Char) (rep : List Char) (a b : List Char) :
    replCh tgt rep (a ++ b) = replCh tgt rep a ++ replCh tgt rep b := by
  induction a with
  | nil => rfl
  | cons c cs ih =>
    simp only [List.cons_append, replCh, List.append_eq, ih,
      List.append_assoc]

/-- Symbol normalization distributes over concatenation. -/
theorem normalizeSyms_append (a b : List Char) :
    normalizeSyms (a ++ b) = normalizeSyms a ++ normalizeSyms b := by
  unfold normalizeSyms
  simp only [replCh_append]

/-- Replacement is the identity when the target char is absent. -/
theorem replCh_keep (tgt : Char) (rep : List Char) (cs : List Char)
    (h : ∀ c ∈ cs, c ≠ tgt) : replCh tgt rep cs = cs := by
  induction cs with
  | nil => rfl
  | cons c cs ih =>
    have hc := h c (List.mem_cons_self c cs)
    simp only [replCh, if_neg hc, List.singleton_append, List.cons.injEq,
      true_and]
    exact ih (fun d hd => h d (List.mem_cons_of_mem c hd))

/-- Symbol normalization is the identity on symbol-free text. -/
theorem normalizeSyms_keep (cs : List Char)
    (h : ∀ c ∈ cs, symChars.contains c = false) : normalizeSyms cs = cs := by
  have h4 : ∀ c ∈ cs, c ≠ '⌃' ∧ c ≠ '⌥' ∧ c ≠ '⇧' ∧ c ≠ '⌘' := by
    intro c hc
    have hx := h c hc
    simp [symChars] at hx
    exact ⟨hx.1, hx.2.1, hx.2.2.1, hx.2.2.2⟩
  unfold normalizeSyms
  rw [replCh_keep _ _ _ (fun c hc => (h4 c hc).1)]
  rw [replCh_keep _ _ _ (fun c hc => (h4 c hc).2.1)]
  rw [replCh_keep _ _ _ (fun c hc => (h4 c hc).2.2.1)]
  rw [replCh_keep _ _ _ (fun c hc => (h4 c hc).2.2.2)]

/-- ASCII modifier names are untouched by symbol normalization. -/
theorem normalizeSyms_modName : ∀ m : Modifier,
    normalizeSyms (modName m).data = (modName m).data := by decide

/-- Each legacy symbol normalizes to its ASCII modifier name. -/
theorem normalizeSyms_modSymbol : ∀ m : Modifier,
    normalizeSyms (modSymbol m).data = (modName m).data := by decide

/-- A well-formed key token contains no legacy symbol characters. -/
theorem goodKey_no_sym (k : String) (hg : goodKeyTok k = true) :
    ∀ c ∈ k.data, symChars.contains c = false := by
  intro c hc
  unfold goodKeyTok at hg
  simp only [Bool.and_eq_true, List.all_eq_true] at hg
  have hx := hg.1.1 c hc
  simp only [Bool.and_eq_true, Bool.not_eq_true'] at hx
  exact hx.2

/-- A well-formed key token contains no plus sign. -/
theorem goodKey_no_plus (k : String) (hg : goodKeyTok k = true) :
    ∀ c ∈ k.data, c ≠ '+' := by
  intro c hc
  unfold goodKeyTok at hg
  simp only [Bool.and_eq_true, List.all_eq_true] at hg
  have hy := hg.1.1 c hc
  simp only [Bool.and_eq_true, Bool.not_eq_true'] at hy
  intro hx
  rw [hx] at hy
  simp at hy

/-- A well-formed key token carries no surrounding whitespace. -/
theorem goodKey_trim (k : String) (hg : goodKeyTok k = true) :
    jsTrim k = k := by
  unfold goodKeyTok at hg
  simp only [Bool.and_eq_true, beq_iff_eq] at hg
  exact hg.1.2

/-- A well-formed key token is not a modifier name. -/
theorem goodKey_not_mod (k : String) (hg : goodKeyTok k = true) :
    toModifier k = none := by
  unfold goodKeyTok at hg
  simp only [Bool.and_eq_true, Option.isNone_iff_eq_none] at hg
  exact hg.2

/-- Symbol normalization sends each rendered token to its ASCII form. -/
theorem normalizeSyms_renderTok (t : ShortcutTok)
    (hg : ∀ k, t = ShortcutTok.keyTok k → goodKeyTok k = true) :
    normalizeSyms (renderTok t).data = (asciiTok t).data := by
  cases t with
  | modTok m f =>
    cases f with
    | ascii => exact normalizeSyms_modName m
    | sym => exact normalizeSyms_modSymbol m
  | keyTok k =>
    exact normalizeSyms_keep k.data (goodKey_no_sym k (hg k rfl))

/-- Joining at least two parts puts a plus between the first two. -/
theorem joinPlus_two (s r : String) (rest : List String) :
    (joinPlus (s :: r :: rest)).data
      = s.data ++ '+' :: (joinPlus (r :: rest)).data := by
  show (s ++ "+" ++ joinPlus (r :: rest)).data = _
  simp [String.data_append]

/-- Symbol normalization of a rendered shortcut string equals the join of
the tokens' ASCII forms. -/
theorem normalizeSyms_renderToks (toks : List ShortcutTok)
    (hg : ∀ k, ShortcutTok.keyTok k ∈ toks → goodKeyTok k = true) :
    normalizeSyms (renderShortcut toks).data
      = (joinPlus (toks.map asciiTok)).data := by
  induction toks with
  | nil => rfl
  | cons t rest ih =>
    cases rest with
    | nil =>
      show normalizeSyms (renderTok t).data = (asciiTok t).data
      exact normalizeSyms_renderTok t
        (fun k hk => hg k (by rw [hk]; exact List.mem_cons_self _ _))
    | cons t2 rest2 =>
      have hgrest : ∀ k, ShortcutTok.keyTok k ∈ t2 :: rest2 →
          goodKeyTok k = true :=
        fun k hk => hg k (List.mem_cons_of_mem t hk)
      show normalizeSyms (joinPlus (renderTok t ::
        (t2 :: rest2).map renderTok)).data = _
      rw [show joinPlus (renderTok t :: (t2 :: rest2).map renderTok)
          = renderTok t ++ "+" ++ joinPlus ((t2 :: rest2).map renderTok)
          from rfl]
      simp only [String.data_append]
      rw [normalizeSyms_append, normalizeSyms_append]
      rw [normalizeSyms_renderTok t
        (fun k hk => hg k (by rw [hk]; exact List.mem_cons_self _ _))]
      rw [show normalizeSyms ("+" : String).data = ("+" : String).data
        from by decide]
      have ih2 := ih hgrest
      unfold renderShortcut at ih2
      rw [ih2]
      rw [show List.map asciiTok (t :: t2 :: rest2)
          = asciiTok t :: asciiTok t2 :: rest2.map asciiTok from rfl]
      rw [joinPlus_two (asciiTok t) (asciiTok t2) (rest2.map asciiTok)]
      simp [String.data_append]

/-- Splitting plus-free text yields a single chunk. -/
theorem splitAux_no_plus (cs : List Char) :
    ∀ acc : List Char, (∀ c ∈ cs, c ≠ '+') →
      splitOnPlusAux cs acc = [acc.reverse ++ cs] := by
  induction cs with
  | nil => intro acc _; simp [splitOnPlusAux]
  | cons c cs ih =>
    intro acc h
    have hc := h c (List.mem_cons_self c cs)
    rw [splitOnPlusAux, if_neg hc]
    rw [ih (c :: acc) (fun d hd => h d (List.mem_cons_of_mem c hd))]
    simp

/-- Splitting peels one plus-free chunk at the first plus sign. -/
theorem splitAux_chunk (cs : List Char) :
    ∀ (ds acc : List Char), (∀ c ∈ cs, c ≠ '+') →
      splitOnPlusAux (cs ++ '+' :: ds) acc
        = (acc.reverse ++ cs) :: splitOnPlusAux ds [] := by
  induction cs with
  | nil =>
    intro ds acc _
    simp only [List.nil_append]
    rw [splitOnPlusAux, if_pos rfl]
    simp
  | cons c cs ih =>
    intro ds acc h
    have hc := h c (List.mem_cons_self c cs)
    show splitOnPlusAux (c :: (cs ++ '+' :: ds)) acc = _
    rw [splitOnPlusAux, if_neg hc]
    rw [ih ds (c :: acc) (fun d hd => h d (List.mem_cons_of_mem c hd))]
    simp

/-- Splitting on plus inverts joining with plus for plus-free parts. -/
theorem splitOnPlus_joinPlus : ∀ qs : List String, qs ≠ [] →
    (∀ q ∈ qs, ∀ c ∈ q.data, c ≠ '+') →
    splitOnPlus (joinPlus qs).data = qs.map String.data := by
  intro qs
  induction qs with
  | nil => intro h _; exact absurd rfl h
  | cons q rest ih =>
    intro _ h
    have hq : ∀ c ∈ q.data, c ≠ '+' :=
      h q (List.mem_cons_self q rest)
    cases rest with
    | nil =>
      show splitOnPlus q.data = [q.data]
      unfold splitOnPlus
      rw [splitAux_no_plus q.data [] hq]
      simp
    | cons q2 rest2 =>
      rw [joinPlus_two q q2 rest2]
      unfold splitOnPlus
      rw [splitAux_chunk q.data ((joinPlus (q2 :: rest2)).data) [] hq]
      simp only [List.reverse_nil, List.nil_append, List.map_cons,
        List.cons.injEq, true_and]
      exact ih (by simp) (fun p hp => h p (List.mem_cons_of_mem q hp))

/-- Modifier names contain no plus sign. -/
theorem modName_no_plus : ∀ m : Modifier, ∀ c ∈ (modName m).data, c ≠ '+' := by
  decide

/-- Modifier names carry no surrounding whitespace. -/
theorem jsTrim_modName : ∀ m : Modifier, jsTrim (modName m) = modName m := by
  decide

/-- Each ASCII modifier name classifies as its modifier. -/
theorem toModifier_modName : ∀ m : Modifier, toModifier (modName m) = some m := by
  decide

/-- ASCII modifier names are modifier tokens. -/
theorem isModifierTok_modName : ∀ m : Modifier,
    isModifierTok (modName m) = true := by decide

/-- Every ASCII-form token is plus-free. -/
theorem asciiTok_no_plus (t : ShortcutTok)
    (hg : ∀ k, t = ShortcutTok.keyTok k → goodKeyTok k = true) :
    ∀ c ∈ (asciiTok t).data, c ≠ '+' := by
  cases t with
  | modTok m f => exact modName_no_plus m
  | keyTok k => exact goodKey_no_plus k (hg k rfl)

/-- Every ASCII-form token is already trimmed. -/
theorem jsTrim_asciiTok (t : ShortcutTok)
    (hg : ∀ k, t = ShortcutTok.keyTok k → goodKeyTok k = true) :
    jsTrim (asciiTok t) = asciiTok t := by
  cases t with
  | modTok m f => exact jsTrim_modName m
  | keyTok k => exact goodKey_trim k (hg k rfl)

/-- The parser's trimmed token list of a rendered shortcut string is
exactly the token list's ASCII forms. -/
theorem tokensOf_render (toks : List ShortcutTok) (hnil : toks ≠ [])
    (hg : ∀ k, ShortcutTok.keyTok k ∈ toks → goodKeyTok k = true) :
    tokensOf (renderShortcut toks) = toks.map asciiTok := by
  unfold tokensOf
  rw [normalizeSyms_renderToks toks hg]
  rw [splitOnPlus_joinPlus (toks.map asciiTok) (by simp [hnil])
    (by
      intro q hq c hc
      obtain ⟨t, ht, rfl⟩ := List.mem_map.mp hq
      exact asciiTok_no_plus t
        (fun k hk => hg k (by rw [← hk]; exact ht)) c hc)]
  rw [List.map_map, List.map_map]
  apply List.map_congr_left
  intro t ht
  show jsTrim ⟨(asciiTok t).data⟩ = asciiTok t
  exact jsTrim_asciiTok t (fun k hk => hg k (by rw [← hk]; exact ht))

/-- The parse fold's modifier set only depends on the modifier
classification of the tokens. -/
theorem fold_modset (toks' : List String) :
    ∀ st : ModSet × Option String,
      (toks'.foldl parseStepT st).1 = toks'.foldl
        (fun ms u =>
          match toModifier u with
          | some m => ms.add m
          | none => ms) st.1 := by
  induction toks' with
  | nil => intro st; rfl
  | cons u us ih =>
    intro st
    cases hm : toModifier u with
    | some m =>
      have hstep : parseStepT st u = (st.1.add m, st.2) := by
        unfold parseStepT
        rw [hm]
      rw [List.foldl_cons, List.foldl_cons, hstep, hm, ih]
    | none =>
      have hstep : parseStepT st u = (st.1, some (normalizeKeyString u)) := by
        unfold parseStepT
        rw [hm]
      rw [List.foldl_cons, List.foldl_cons, hstep, hm, ih]

/-- Over ASCII forms, the modifier fold computes the token list's
denoted modifier set. -/
theorem modfold_ascii (toks : List ShortcutTok)
    (hg : ∀ k, ShortcutTok.keyTok k ∈ toks → goodKeyTok k = true) :
    ∀ ms : ModSet,
      (toks.map asciiTok).foldl
        (fun ms u =>
          match toModifier u with
          | some m => ms.add m
          | none => ms) ms
      = toks.foldl
        (fun ms t =>
          match t with
          | .modTok m _ => ms.add m
          | .keyTok _ => ms) ms := by
  induction toks with
  | nil => intro ms; rfl
  | cons t rest ih =>
    intro ms
    have hgrest : ∀ k, ShortcutTok.keyTok k ∈ rest → goodKeyTok k = true :=
      fun k hk => hg k (List.mem_cons_of_mem t hk)
    cases t with
    | modTok m f =>
      simp only [List.map_cons, List.foldl_cons, toModifier_modName m, asciiTok]
      exact ih hgrest (ms.add m)
    | keyTok k =>
      have hkm : toModifier k = none :=
        goodKey_not_mod k (hg k (List.mem_cons_self _ _))
      simp only [List.map_cons, List.foldl_cons, asciiTok, hkm]
      exact ih hgrest ms

/-- Over ASCII forms, the non-modifier tokens are exactly the key
tokens. -/
theorem filter_ascii (toks : List ShortcutTok)
    (hg : ∀ k, ShortcutTok.keyTok k ∈ toks → goodKeyTok k = true) :
    (toks.map asciiTok).filter (fun u => !isModifierTok u)
      = keyToksOf toks := by
  induction toks with
  | nil => rfl
  | cons t rest ih =>
    have hgrest : ∀ k, ShortcutTok.keyTok k ∈ rest → goodKeyTok k = true :=
      fun k hk => hg k (List.mem_cons_of_mem t hk)
    cases t with
    | modTok m f =>
      simp only [List.map_cons, List.filter_cons, asciiTok,
        isModifierTok_modName m, Bool.not_true, if_false, keyToksOf,
        List.filterMap_cons]
      exact ih hgrest
    | keyTok k =>
      have hkm : toModifier k = none :=
        goodKey_not_mod k (hg k (List.mem_cons_self _ _))
      have hkmt : isModifierTok k = false := by
        simp [isModifierTok, hkm]
      simp only [List.map_cons, List.filter_cons, asciiTok, hkmt,
        Bool.not_false, if_true, keyToksOf, List.filterMap_cons]
      rw [ih hgrest]
      rfl

/-- A token list with a modifier and one key token renders to a
nonempty string. -/
theorem renderShortcut_ne_empty (toks : List ShortcutTok) (k : String)
    (hone : keyToksOf toks = [k]) (hsz : (modSetOfToks toks).size ≠ 0) :
    renderShortcut toks ≠ "" := by
  cases toks with
  | nil => simp [keyToksOf] at hone
  | cons t rest =>
    cases rest with
    | nil =>
      cases t with
      | modTok m f => simp [keyToksOf] at hone
      | keyTok k' =>
        exact absurd
          (show (modSetOfToks [ShortcutTok.keyTok k']).size = 0 from rfl) hsz
    | cons t2 rest2 =>
      intro hemp
      have hdata : (renderShortcut (t :: t2 :: rest2)).data = [] := by
        rw [hemp]
      rw [show renderShortcut (t :: t2 :: rest2)
        = joinPlus (renderTok t :: renderTok t2 :: rest2.map renderTok)
        from rfl] at hdata
      rw [joinPlus_two] at hdata
      simp at hdata

/-- Master lemma: parsing a rendered token list with exactly one
(well-formed, nonempty-normalizing) key token and at least one modifier
yields the denoted modifier set paired with the normalized key —
whatever order the tokens are written in and whichever form (ASCII name
or legacy symbol) each modifier uses. -/
theorem parseShortcut_render (toks : List ShortcutTok) (k : String)
    (hg : ∀ k', ShortcutTok.keyTok k' ∈ toks → goodKeyTok k' = true)
    (hone : keyToksOf toks = [k])
    (hsz : (modSetOfToks toks).size ≠ 0)
    (hkey : normalizeKeyString k ≠ "") :
    parseShortcut (renderShortcut toks)
      = some ⟨modSetOfToks toks, normalizeKeyString k⟩ := by
  have hnil : toks ≠ [] := by
    rintro rfl
    simp [keyToksOf] at hone
  unfold parseShortcut
  rw [if_neg (renderShortcut_ne_empty toks k hone hsz)]
  rw [if_neg (by
    simp only [splitOnPlus, ne_eq, List.map_eq_nil_iff]
    exact splitOnPlusAux_ne_nil
      (normalizeSyms (renderShortcut toks).data) [])]
  have hfold : ((splitOnPlus (normalizeSyms (renderShortcut toks).data)).map
      (fun cs => (⟨cs⟩ : String))).foldl parseStep (ModSet.empty, none)
      = (tokensOf (renderShortcut toks)).foldl parseStepT
        (ModSet.empty, none) := by
    rw [foldl_parseStep, List.map_map]
    rfl
  rw [hfold, tokensOf_render toks hnil hg]
  have hkeyslot : ((toks.map asciiTok).foldl parseStepT
      (ModSet.empty, none)).2 = some (normalizeKeyString k) := by
    rw [fold_key_slot (toks.map asciiTok) (ModSet.empty, none)]
    rw [filter_ascii toks hg, hone]
    rfl
  have hmodset : ((toks.map asciiTok).foldl parseStepT
      (ModSet.empty, none)).1 = modSetOfToks toks := by
    rw [fold_modset (toks.map asciiTok) (ModSet.empty, none)]
    exact modfold_ascii toks hg ModSet.empty
  simp only [hkeyslot, hmodset]
  rw [if_neg (by
    push_neg
    exact ⟨hsz, hkey⟩)]

/-- C7: two shortcut strings that denote the same key and the same
modifier set — regardless of the order in which the modifiers are
written and regardless of ASCII-name versus legacy-symbol form — parse
to combos that `matches` considers matching (equal key, equal modifier
sets). -/
theorem C7_parse_invariant_order_symbols
    (toks1 toks2 : List ShortcutTok) (k1 k2 : String)
    (hg1 : ∀ k', ShortcutTok.keyTok k' ∈ toks1 → goodKeyTok k' = true)
    (hg2 : ∀ k', ShortcutTok.keyTok k' ∈ toks2 → goodKeyTok k' = true)
    (hone1 : keyToksOf toks1 = [k1])
    (hone2 : keyToksOf toks2 = [k2])
    (hmods : modSetOfToks toks1 = modSetOfToks toks2)
    (hsz : (modSetOfToks toks1).size ≠ 0)
    (hkeq : normalizeKeyString k1 = normalizeKeyString k2)
    (hkey : normalizeKeyString k1 ≠ "") :
    ∃ c1 c2 : KeyCombo,
      parseShortcut (renderShortcut toks1) = some c1 ∧
      parseShortcut (renderShortcut toks2) = some c2 ∧
      matchesPress c1 c2 = true := by
  refine ⟨⟨modSetOfToks toks1, normalizeKeyString k1⟩,
    ⟨modSetOfToks toks2, normalizeKeyString k2⟩, ?_, ?_, ?_⟩
  · exact parseShortcut_render toks1 k1 hg1 hone1 hsz hkey
  · exact parseShortcut_render toks2 k2 hg2 hone2 (hmods ▸ hsz)
      (hkeq ▸ hkey)
  · unfold matchesPress
    simp only [Bool.and_eq_true, beq_iff_eq, modifierSetsMatch_iff]
    exact ⟨hkeq, hmods⟩

/-- Witness for C7: `"Ctrl+Shift+S"` versus `"⇧+⌃+s"` — different
modifier order, legacy symbols, and lowercase key — parse to matching
combos. -/
theorem C7_witness :
    ((∀ k', ShortcutTok.keyTok k' ∈
        [ShortcutTok.modTok .ctrl .ascii, ShortcutTok.modTok .shift .ascii,
          ShortcutTok.keyTok "S"] → goodKeyTok k' = true) ∧
      (∀ k', ShortcutTok.keyTok k' ∈
        [ShortcutTok.modTok .shift .sym, ShortcutTok.modTok .ctrl .sym,
          ShortcutTok.keyTok "s"] → goodKeyTok k' = true) ∧
      keyToksOf [ShortcutTok.modTok .ctrl .ascii,
        ShortcutTok.modTok .shift .ascii, ShortcutTok.keyTok "S"] = ["S"] ∧
      keyToksOf [ShortcutTok.modTok .shift .sym,
        ShortcutTok.modTok .ctrl .sym, ShortcutTok.keyTok "s"] = ["s"] ∧
      modSetOfToks [ShortcutTok.modTok .ctrl .ascii,
        ShortcutTok.modTok .shift .ascii, ShortcutTok.keyTok "S"]
        = modSetOfToks [ShortcutTok.modTok .shift .sym,
          ShortcutTok.modTok .ctrl .sym, ShortcutTok.keyTok "s"] ∧
      (modSetOfToks [ShortcutTok.modTok .ctrl .ascii,
        ShortcutTok.modTok .shift .ascii,
        ShortcutTok.keyTok "S"]).size ≠ 0 ∧
      normalizeKeyString "S" = normalizeKeyString "s" ∧
      normalizeKeyString "S" ≠ "") ∧
    (renderShortcut [ShortcutTok.modTok .ctrl .ascii,
        ShortcutTok.modTok .shift .ascii, ShortcutTok.keyTok "S"]
      = "Ctrl+Shift+S" ∧
      renderShortcut [ShortcutTok.modTok .shift .sym,
        ShortcutTok.modTok .ctrl .sym, ShortcutTok.keyTok "s"]
      = "⇧+⌃+s") ∧
    (∃ c1 c2 : KeyCombo,
      parseShortcut (renderShortcut [ShortcutTok.modTok .ctrl .ascii,
        ShortcutTok.modTok .shift .ascii, ShortcutTok.keyTok "S"])
        = some c1 ∧
      parseShortcut (renderShortcut [ShortcutTok.modTok .shift .sym,
        ShortcutTok.modTok .ctrl .sym, ShortcutTok.keyTok "s"])
        = some c2 ∧
      matchesPress c1 c2 = true) := by
  have hg1 : ∀ k', ShortcutTok.keyTok k' ∈
      [ShortcutTok.modTok .ctrl .ascii, ShortcutTok.modTok .shift .ascii,
        ShortcutTok.keyTok "S"] → goodKeyTok k' = true := by
    intro k' hk
    simp at hk
    subst hk
    decide
  have hg2 : ∀ k', ShortcutTok.keyTok k' ∈
      [ShortcutTok.modTok .shift .sym, ShortcutTok.modTok .ctrl .sym,
        ShortcutTok.keyTok "s"] → goodKeyTok k' = true := by
    intro k' hk
    simp at hk
    subst hk
    decide
  refine ⟨⟨hg1, hg2, by decide, by decide, by decide, by decide, by decide,
    by decide⟩, ⟨by decide, by decide⟩, ?_⟩
  exact C7_parse_invariant_order_symbols _ _ "S" "s" hg1 hg2 (by decide) (by decide) (by decide)
    (by decide) (by decide) (by decide)
